import Mathlib

/-!
Shallow embedding of the jogging-calculation core in
`moveit_experimental/moveit_jog_arm/src/jog_calcs.cpp` (class `JogCalcs`),
with theorems about its singularity scaling, drift-dimension pruning,
command scaling, halt synthesis, publish policy, and joint-state tracking.

Modelling conventions:
* C++ `double` values are modelled as exact rationals (`ℚ`); decimal
  literals such as `0.1` become the exact rational `1/10`.
* `Eigen::VectorXd` is a `List ℚ`, `Eigen::MatrixXd` is a row-major
  `List (List ℚ)`.
* Eigen's `JacobiSVD` of a matrix is a deterministic computation; it is
  modelled by an explicit function argument `svdOf : Mat → Svd` giving, for
  each matrix, its left singular vectors (`matrixU`) and its singular values
  in Eigen's decreasing order (`singularValues`).  The same `svdOf` stands
  for both the thin-flag and the flagless `JacobiSVD` constructors, whose
  singular values agree for a given input matrix.
* The mutable `kinematic_state_` joint-group positions are passed in and
  returned explicitly (`theta`).
-/

namespace MoveitJogArm

abbrev Vec := List ℚ

abbrev Mat := List (List ℚ)

/-- Dot product of two coordinate vectors (`Eigen .dot`). -/
def dotProd (a b : Vec) : ℚ :=
  (a.zip b).foldl (fun s p => s + p.1 * p.2) 0

/-- Matrix-vector product (`Eigen operator*`). -/
def matVecMul (m : Mat) (v : Vec) : Vec :=
  m.map (fun r => dotProd r v)

/-- Componentwise vector sum (`Eigen operator+=`). -/
def vecAdd (a b : Vec) : Vec :=
  (a.zip b).map (fun p => p.1 + p.2)

/-- Scalar multiple of a vector. -/
def scaleVec (c : ℚ) (v : Vec) : Vec :=
  v.map (fun x => c * x)

/-- Column `j` of a matrix (`.col(j)`). -/
def col (m : Mat) (j : Nat) : Vec :=
  m.map (fun r => r.getD j 0)

/-- The fields of `JogArmParameters` used by the functions modelled here. -/
structure JogArmParameters where
  planning_frame : String
  command_in_type : String
  publish_period : ℚ
  linear_scale : ℚ
  rotational_scale : ℚ
  joint_scale : ℚ
  lower_singularity_threshold : ℚ
  hard_stop_singularity_threshold : ℚ
  joint_limit_margin : ℚ
  num_outgoing_halt_msgs_to_publish : Int
  publish_joint_positions : Bool
  publish_joint_velocities : Bool
  publish_joint_accelerations : Bool
deriving Repr

/-- Result of an `Eigen::JacobiSVD` of the (pruned) Jacobian: the left
singular vectors and the singular values, ordered decreasingly as Eigen
guarantees. -/
structure Svd where
  matrixU : Mat
  singularValues : List ℚ
deriving Repr

/-- Condition number as the source computes it:
`svd.singularValues()(0) / svd.singularValues()(svd.singularValues().size() - 1)`. -/
def conditionNumber (svd : Svd) : ℚ :=
  svd.singularValues.headD 0 / svd.singularValues.getLastD 0

/-- The sign-corrected singular direction of `velocityScalingFactorForSingularity`
(jog_calcs.cpp lines 490–515): take the last column of U, then flip its sign
when `ini_condition >= new_condition`, where `new_condition` comes from
`Eigen::JacobiSVD<Eigen::MatrixXd> new_svd(jacobian)` — an SVD of the very
`jacobian` argument that was passed in (the pre-probe matrix), not of a
Jacobian re-evaluated at the probe joint positions. -/
def correctedSingularVector (svdOf : Mat → Svd) (svd : Svd) (jacobian : Mat) : Vec :=
  let vector_toward_singularity := col svd.matrixU (jacobian.length - 1)
  let ini_condition := conditionNumber svd
  let new_condition := conditionNumber (svdOf jacobian)
  if ini_condition ≥ new_condition then scaleVec (-1) vector_toward_singularity
  else vector_toward_singularity

/-- `JogCalcs::velocityScalingFactorForSingularity` (jog_calcs.cpp lines
478–540).  Returns the velocity scale together with the joint-group
positions held by `kinematic_state_` when the function returns: the source
executes `kinematic_state_->setJointGroupPositions(new_theta)` for the probe
and never restores the previous positions. -/
def velocityScalingFactorForSingularity (svdOf : Mat → Svd) (p : JogArmParameters)
    (commanded_velocity : Vec) (svd : Svd) (jacobian : Mat) (pseudo_inverse : Mat)
    (theta : Vec) : ℚ × Vec :=
  let num_dimensions := jacobian.length
  let vector_toward_singularity := col svd.matrixU (num_dimensions - 1)
  let ini_condition := conditionNumber svd
  let delta_x := scaleVec (1 / 100) vector_toward_singularity
  let new_theta := vecAdd theta (matVecMul pseudo_inverse delta_x)
  let corrected := correctedSingularVector svdOf svd jacobian
  let dot := dotProd corrected commanded_velocity
  let velocity_scale :=
    if dot > 0 then
      if ini_condition > p.lower_singularity_threshold ∧
          ini_condition < p.hard_stop_singularity_threshold then
        1 - (ini_condition - p.lower_singularity_threshold) /
            (p.hard_stop_singularity_threshold - p.lower_singularity_threshold)
      else if ini_condition > p.hard_stop_singularity_threshold then 0
      else 1
    else 1
  (velocity_scale, new_theta)

/-! Concrete inputs used to exercise the singularity scaler. -/

/-- A concrete parameter set: singularity thresholds lower = 2, hard_stop = 4. -/
def exParams : JogArmParameters where
  planning_frame := "base_link"
  command_in_type := "unitless"
  publish_period := 1 / 100
  linear_scale := 1
  rotational_scale := 1
  joint_scale := 1
  lower_singularity_threshold := 2
  hard_stop_singularity_threshold := 4
  joint_limit_margin := 1 / 10
  num_outgoing_halt_msgs_to_publish := 4
  publish_joint_positions := true
  publish_joint_velocities := true
  publish_joint_accelerations := false

def exJacobian : Mat := [[1, 0], [0, 1]]

/-- SVD with condition number exactly `hard_stop_singularity_threshold` = 4. -/
def exSvdHard : Svd := ⟨[[0, -1], [1, 0]], [4, 1]⟩

def exSvdOfHard : Mat → Svd := fun _ => exSvdHard

/-- SVD with condition number 8, beyond the hard-stop threshold. -/
def exSvdBeyond : Svd := ⟨[[0, -1], [1, 0]], [8, 1]⟩

def exSvdOfBeyond : Mat → Svd := fun _ => exSvdBeyond

def exCmd : Vec := [1, 0]

def exPinv : Mat := [[1, 0], [0, 1]]

def exTheta : Vec := [0, 0]

/-- Claim C1 (amended): with `lower < hard_stop`, and writing `d` for the dot
product of the sign-corrected last singular direction with the commanded
Cartesian velocity and `k0` for the condition number the source computes,
`velocityScalingFactorForSingularity` returns 1 when `d ≤ 0`; and when
`0 < d` it returns 1 for `k0 ≤ lower`, the linear ramp
`1 - (k0 - lower)/(hard_stop - lower)` for `lower < k0 < hard_stop`,
1 (not 0) at the boundary `k0 = hard_stop`, and 0 for `k0 > hard_stop`
strictly. -/
theorem velocityScalingFactorForSingularity_ramp_cases
    (svdOf : Mat → Svd) (p : JogArmParameters) (commanded_velocity : Vec) (svd : Svd)
    (jacobian pseudo_inverse : Mat) (theta : Vec)
    (hth : p.lower_singularity_threshold < p.hard_stop_singularity_threshold) :
    (dotProd (correctedSingularVector svdOf svd jacobian) commanded_velocity ≤ 0 →
      (velocityScalingFactorForSingularity svdOf p commanded_velocity svd jacobian
        pseudo_inverse theta).1 = 1) ∧
    (0 < dotProd (correctedSingularVector svdOf svd jacobian) commanded_velocity →
      (conditionNumber svd ≤ p.lower_singularity_threshold →
        (velocityScalingFactorForSingularity svdOf p commanded_velocity svd jacobian
          pseudo_inverse theta).1 = 1) ∧
      (p.lower_singularity_threshold < conditionNumber svd →
        conditionNumber svd < p.hard_stop_singularity_threshold →
        (velocityScalingFactorForSingularity svdOf p commanded_velocity svd jacobian
          pseudo_inverse theta).1 =
          1 - (conditionNumber svd - p.lower_singularity_threshold) /
            (p.hard_stop_singularity_threshold - p.lower_singularity_threshold)) ∧
      (conditionNumber svd = p.hard_stop_singularity_threshold →
        (velocityScalingFactorForSingularity svdOf p commanded_velocity svd jacobian
          pseudo_inverse theta).1 = 1) ∧
      (p.hard_stop_singularity_threshold < conditionNumber svd →
        (velocityScalingFactorForSingularity svdOf p commanded_velocity svd jacobian
          pseudo_inverse theta).1 = 0)) := by
  simp only [velocityScalingFactorForSingularity]
  refine ⟨fun hd => ?_, fun hd => ⟨fun hk => ?_, fun hk1 hk2 => ?_, fun hk => ?_, fun hk => ?_⟩⟩
  · split_ifs with h1 h2 h3 <;> first | rfl | linarith
  · split_ifs with h1 h2 h3 <;> first | rfl | linarith
  · split_ifs with h1 h2 h3 <;>
      first
        | rfl
        | linarith
        | (exact absurd (⟨hk1, hk2⟩ : _ ∧ _) h2)
  · split_ifs with h1 h2 h3 <;> first | rfl | linarith
  · split_ifs with h1 h2 h3 <;> first | rfl | linarith

/-- Claim C1 witness: at the concrete input whose condition number 8 exceeds
the hard-stop threshold 4 and whose sign-corrected dot product is positive,
the theorem yields scale 0. -/
theorem velocityScalingFactorForSingularity_ramp_cases_witness :
    (velocityScalingFactorForSingularity exSvdOfBeyond exParams exCmd exSvdBeyond exJacobian
      exPinv exTheta).1 = 0 :=
  ((velocityScalingFactorForSingularity_ramp_cases exSvdOfBeyond exParams exCmd exSvdBeyond
      exJacobian exPinv exTheta (by norm_num [exParams])).2
    (by norm_num [correctedSingularVector, conditionNumber, col, scaleVec, dotProd,
      exSvdOfBeyond, exSvdBeyond, exJacobian, exCmd])).2.2.2
    (by norm_num [conditionNumber, exSvdBeyond, exParams])

/-- Claim C1 counterexample: at `k0 = hard_stop_singularity_threshold` exactly,
with a positive sign-corrected dot product, the source returns scale 1, not
the 0 the claim asserts for `k0 ≥ hard_stop`: both strict comparisons
`ini_condition < hard_stop` and `ini_condition > hard_stop` fail, so the
initialisation `velocity_scale = 1` survives. -/
theorem velocityScalingFactorForSingularity_hard_stop_boundary_counterexample :
    0 < dotProd (correctedSingularVector exSvdOfHard exSvdHard exJacobian) exCmd ∧
    conditionNumber exSvdHard = exParams.hard_stop_singularity_threshold ∧
    (velocityScalingFactorForSingularity exSvdOfHard exParams exCmd exSvdHard exJacobian
      exPinv exTheta).1 = 1 ∧
    (velocityScalingFactorForSingularity exSvdOfHard exParams exCmd exSvdHard exJacobian
      exPinv exTheta).1 ≠ 0 := by
  norm_num [velocityScalingFactorForSingularity, correctedSingularVector, conditionNumber,
    col, scaleVec, dotProd, exSvdOfHard, exSvdHard, exJacobian, exCmd, exParams, exPinv,
    exTheta]

/-- Claim C2: the probe step is committed.  At a concrete call, the joint
positions held by the kinematic state after
`velocityScalingFactorForSingularity` equal `theta + pinv * (u_last / 100)`,
which differs from the pre-call positions `theta = [0, 0]`: the source never
restores the positions it set for the look-ahead probe. -/
theorem velocityScalingFactorForSingularity_commits_probe_step :
    (velocityScalingFactorForSingularity exSvdOfBeyond exParams exCmd exSvdBeyond exJacobian
      exPinv exTheta).2 = [-1 / 100, 0] ∧
    exTheta = [0, 0] ∧
    (velocityScalingFactorForSingularity exSvdOfBeyond exParams exCmd exSvdBeyond exJacobian
      exPinv exTheta).2 ≠ exTheta := by
  norm_num [velocityScalingFactorForSingularity, correctedSingularVector, conditionNumber,
    col, scaleVec, dotProd, vecAdd, matVecMul, exSvdOfBeyond, exSvdBeyond, exJacobian,
    exCmd, exParams, exPinv, exTheta]

/-- Claim C3: the look-ahead SVD is taken of the pre-probe `jacobian` argument,
not of a Jacobian re-evaluated at the probe joints.  Consequently, whenever
the `svd` argument is the SVD of that same `jacobian` (as at the call site in
`cartesianJogCalcs`), `new_condition` equals `ini_condition`, the test
`ini_condition >= new_condition` always holds, and the singular direction is
always sign-flipped — for every matrix and every SVD function, independently
of the probe joint positions. -/
theorem probeSvd_is_of_preprobe_jacobian_so_sign_always_flips
    (svdOf : Mat → Svd) (jacobian : Mat) :
    correctedSingularVector svdOf (svdOf jacobian) jacobian =
      scaleVec (-1) (col (svdOf jacobian).matrixU (jacobian.length - 1)) := by
  simp [correctedSingularVector]

/-- `JogCalcs::removeDimension` (jog_calcs.cpp lines 751–765): shift the rows
below `row_to_remove` up by one (only when `row_to_remove < rows - 1`), then
`conservativeResize` to `rows - 1` rows; same for the entries of `delta_x`.
The net effect is erasure of row `row_to_remove` when it is in range, and
silent truncation of the last row when it is not. -/
def removeDimension (jacobian : Mat) (delta_x : Vec) (row_to_remove : Nat) : Mat × Vec :=
  let num_rows := jacobian.length - 1
  if row_to_remove < num_rows then
    (jacobian.eraseIdx row_to_remove, delta_x.eraseIdx row_to_remove)
  else
    (jacobian.take num_rows, delta_x.take num_rows)

/-- Body of one iteration of the drift-dimension pruning loop in
`cartesianJogCalcs` (jog_calcs.cpp lines 330–336): read
`drift_dimensions[dimension]` and, when it is set and more than one Jacobian
row remains, remove that dimension. -/
def driftPruneStep (drift_dimensions : List Bool) (dimension : Nat)
    (jd : Mat × Vec) : Mat × Vec :=
  if drift_dimensions.getD dimension false = true ∧ jd.1.length > 1 then
    removeDimension jd.1 jd.2 dimension
  else jd

/-- The pruning loop `for (auto dimension = jacobian.rows(); dimension >= 0;
--dimension)`, unrolled from its starting value down to 0.  Alongside the
pruned Jacobian and Cartesian delta it returns the list of indices at which
`drift_dimensions` was read, in loop order. -/
def driftPruneLoop (drift_dimensions : List Bool) :
    Nat → Mat × Vec → (Mat × Vec) × List Nat
  | 0, jd => (driftPruneStep drift_dimensions 0 jd, [0])
  | d + 1, jd =>
    let jd1 := driftPruneStep drift_dimensions (d + 1) jd
    let r := driftPruneLoop drift_dimensions d jd1
    (r.1, (d + 1) :: r.2)

/-- The drift-dimension pruning pass of `cartesianJogCalcs`: the loop variable
is initialised to `jacobian.rows()`, one past the last valid row index. -/
def pruneDriftDimensions (drift_dimensions : List Bool) (jacobian : Mat)
    (delta_x : Vec) : (Mat × Vec) × List Nat :=
  driftPruneLoop drift_dimensions jacobian.length (jacobian, delta_x)

/-- A length-6 drift mask, all dimensions kept. -/
def exDriftMask : List Bool := [false, false, false, false, false, false]

/-- A 6-row Jacobian (the unpruned 6-DOF case). -/
def exJacobian6 : Mat := [[1], [1], [1], [1], [1], [1]]

def exDeltaX6 : Vec := [1, 0, 0, 0, 0, 0]

/-- Claim C4: the first iteration of the drift-pruning loop reads the drift
mask at index `jacobian.rows()` = 6, one past the end of the length-6 mask:
the loop reads indices 6, 5, 4, 3, 2, 1, 0, so not every read index lies in
the valid range 0..5. -/
theorem driftPrune_first_read_out_of_bounds :
    exDriftMask.length = 6 ∧
    (pruneDriftDimensions exDriftMask exJacobian6 exDeltaX6).2 = [6, 5, 4, 3, 2, 1, 0] ∧
    ¬ (∀ i ∈ (pruneDriftDimensions exDriftMask exJacobian6 exDeltaX6).2,
        i < exDriftMask.length) := by
  refine ⟨rfl, ?_, ?_⟩
  · simp [pruneDriftDimensions, driftPruneLoop, driftPruneStep, exDriftMask, exJacobian6,
      exDeltaX6]
  · intro h
    have h6 : (6 : Nat) ∈ (pruneDriftDimensions exDriftMask exJacobian6 exDeltaX6).2 := by
      simp [pruneDriftDimensions, driftPruneLoop, driftPruneStep, exDriftMask, exJacobian6,
        exDeltaX6]
    exact absurd (h 6 h6) (by simp [exDriftMask])

/-- The six spatial components of a `geometry_msgs::TwistStamped` command. -/
structure TwistMsg where
  linear_x : ℚ
  linear_y : ℚ
  linear_z : ℚ
  angular_x : ℚ
  angular_y : ℚ
  angular_z : ℚ
deriving Repr

/-- `JogCalcs::scaleCartesianCommand` (jog_calcs.cpp lines 667–695).  The
source declares `Eigen::VectorXd result(6)` without initialising its
contents; `result0` models those indeterminate initial contents.  Only the
`"unitless"` and `"speed_units"` branches assign to `result`; any other
`command_in_type` merely logs an error and returns `result` as declared. -/
def scaleCartesianCommand (p : JogArmParameters) (result0 : Vec)
    (command : TwistMsg) : Vec :=
  if p.command_in_type = "unitless" then
    [p.linear_scale * p.publish_period * command.linear_x,
     p.linear_scale * p.publish_period * command.linear_y,
     p.linear_scale * p.publish_period * command.linear_z,
     p.rotational_scale * p.publish_period * command.angular_x,
     p.rotational_scale * p.publish_period * command.angular_y,
     p.rotational_scale * p.publish_period * command.angular_z]
  else if p.command_in_type = "speed_units" then
    [command.linear_x * p.publish_period,
     command.linear_y * p.publish_period,
     command.linear_z * p.publish_period,
     command.angular_x * p.publish_period,
     command.angular_y * p.publish_period,
     command.angular_z * p.publish_period]
  else
    result0

/-- The `speed_units` form of a command: `publish_period` times each
component, as claim C5 describes it. -/
def speedUnitsForm (p : JogArmParameters) (command : TwistMsg) : Vec :=
  [command.linear_x * p.publish_period,
   command.linear_y * p.publish_period,
   command.linear_z * p.publish_period,
   command.angular_x * p.publish_period,
   command.angular_y * p.publish_period,
   command.angular_z * p.publish_period]

/-- Parameters whose `command_in_type` is neither recognized string. -/
def exParamsBadType : JogArmParameters :=
  { exParams with command_in_type := "mystery_units", publish_period := 1 }

def exTwist : TwistMsg := ⟨1, 1, 1, 1, 1, 1⟩

/-- The indeterminate initial contents of `Eigen::VectorXd result(6)`. -/
def exUninitResult : Vec := [7, 7, 7, 7, 7, 7]

/-- Claim C5 counterexample: with `command_in_type = "mystery_units"`, a
command of all ones and unit publish period, the source returns whatever the
uninitialised `result` vector held (here 7s), not the speed_units form
(all ones). -/
theorem scaleCartesianCommand_unrecognized_type_counterexample :
    exParamsBadType.command_in_type ≠ "unitless" ∧
    exParamsBadType.command_in_type ≠ "speed_units" ∧
    scaleCartesianCommand exParamsBadType exUninitResult exTwist = exUninitResult ∧
    scaleCartesianCommand exParamsBadType exUninitResult exTwist ≠
      speedUnitsForm exParamsBadType exTwist := by
  refine ⟨by decide, by decide, ?_, ?_⟩
  · simp [scaleCartesianCommand, exParamsBadType, exParams]
  · simp [scaleCartesianCommand, speedUnitsForm, exParamsBadType, exParams, exUninitResult,
      exTwist]

/-- Claim C5 (amended): for every `command_in_type` other than `"unitless"`
and `"speed_units"`, `scaleCartesianCommand` logs an error and returns the
`result` vector with its indeterminate initial contents untouched — it does
not compute the speed_units form. -/
theorem scaleCartesianCommand_unrecognized_type_returns_initial
    (p : JogArmParameters) (result0 : Vec) (command : TwistMsg)
    (h1 : p.command_in_type ≠ "unitless") (h2 : p.command_in_type ≠ "speed_units") :
    scaleCartesianCommand p result0 command = result0 := by
  simp [scaleCartesianCommand, h1, h2]

/-- Claim C5 witness: the amended theorem applied at the concrete
misconfigured parameters. -/
theorem scaleCartesianCommand_unrecognized_type_returns_initial_witness :
    scaleCartesianCommand exParamsBadType exUninitResult exTwist = exUninitResult :=
  scaleCartesianCommand_unrecognized_type_returns_initial exParamsBadType exUninitResult
    exTwist (by decide) (by decide)

/-- `sensor_msgs::JointState`: aligned name/position/velocity/effort arrays. -/
structure JointState where
  name : List String
  position : List ℚ
  velocity : List ℚ
  effort : List ℚ
deriving Repr, Inhabited

/-- `trajectory_msgs::JointTrajectoryPoint`.  The wall-clock header stamp of
the surrounding message is not modelled. -/
@[ext]
structure JointTrajectoryPoint where
  positions : List ℚ
  velocities : List ℚ
  accelerations : List ℚ
  time_from_start : ℚ
deriving Repr, Inhabited

/-- `trajectory_msgs::JointTrajectory` (frame id and stamp of the header are
irrelevant to the claims; the stamp is omitted). -/
structure JointTrajectory where
  frame_id : String
  joint_names : List String
  points : List JointTrajectoryPoint
deriving Repr, Inhabited

/-- `JogCalcs::composeJointTrajMessage` (jog_calcs.cpp lines 436–460): one
point at `time_from_start = publish_period`, with positions/velocities copied
from the joint state and all-zero accelerations, each guarded by its publish
flag. -/
def composeJointTrajMessage (p : JogArmParameters) (num_joints : Nat)
    (joint_state : JointState) : JointTrajectory where
  frame_id := p.planning_frame
  joint_names := joint_state.name
  points :=
    [{ positions := if p.publish_joint_positions then joint_state.position else []
       velocities := if p.publish_joint_velocities then joint_state.velocity else []
       accelerations :=
         if p.publish_joint_accelerations then List.replicate num_joints 0 else []
       time_from_start := p.publish_period }]

/-- One iteration (index `i`) of the loop in `JogCalcs::suddenHalt`
(jog_calcs.cpp lines 618–630): write the snapshot position and a zero
velocity into slot `i` of the first trajectory point, each guarded by its
publish flag. -/
def suddenHaltPointStep (p : JogArmParameters) (original_position : List ℚ)
    (pt : JointTrajectoryPoint) (i : Nat) : JointTrajectoryPoint :=
  let pt1 :=
    if p.publish_joint_positions then
      { pt with positions := pt.positions.set i (original_position.getD i 0) }
    else pt
  if p.publish_joint_velocities then
    { pt1 with velocities := pt1.velocities.set i 0 }
  else pt1

/-- `JogCalcs::suddenHalt`: run the per-joint loop for `i = 0 .. num_joints-1`
on `points[0]`.  The source indexes `points[0]` unconditionally; an empty
points sequence would be undefined behaviour in C++ and is modelled as a
no-op. -/
def suddenHalt (p : JogArmParameters) (original_position : List ℚ) (num_joints : Nat)
    (joint_traj : JointTrajectory) : JointTrajectory :=
  match joint_traj.points with
  | [] => joint_traj
  | pt :: rest =>
    { joint_traj with
      points := (List.range num_joints).foldl (suddenHaltPointStep p original_position) pt
        :: rest }

/-- The outgoing trajectory produced by a halt cycle of `startMainLoop`
(jog_calcs.cpp lines 207–222): the staged trajectory is composed from the
tracked joint state and then `suddenHalt` overwrites its first point from the
`original_joint_state_` snapshot. -/
def haltCycleOutput (p : JogArmParameters) (num_joints : Nat)
    (original_position : List ℚ) (joint_state : JointState) : JointTrajectory :=
  suddenHalt p original_position num_joints
    (composeJointTrajMessage p num_joints joint_state)

theorem length_foldl_set (f : Nat → ℚ) (L : List Nat) :
    ∀ l0 : List ℚ, (L.foldl (fun a i => a.set i (f i)) l0).length = l0.length := by
  induction L with
  | nil => intro l0; rfl
  | cons i rest ih =>
    intro l0
    simp only [List.foldl_cons]
    rw [ih, List.length_set]

theorem getElem?_foldl_set (f : Nat → ℚ) (l : List ℚ) (j : Nat) :
    ∀ n : Nat, ((List.range n).foldl (fun a i => a.set i (f i)) l)[j]? =
      if j < n ∧ j < l.length then some (f j) else l[j]? := by
  intro n
  induction n with
  | zero => simp
  | succ m ih =>
    rw [List.range_succ, List.foldl_append, List.foldl_cons, List.foldl_nil,
      List.getElem?_set, length_foldl_set, ih]
    rcases eq_or_ne m j with h | h
    · subst h
      by_cases hl : m < l.length
      · simp [hl]
      · simp [hl, List.getElem?_eq_none (Nat.le_of_not_lt hl)]
    · have hiff : (j < m ∧ j < l.length) ↔ (j < m + 1 ∧ j < l.length) := by omega
      rw [if_neg h, if_congr hiff rfl rfl]

theorem foldl_set_eq_of_length (f : Nat → ℚ) (n : Nat) (l target : List ℚ)
    (hl : l.length = n) (ht : target.length = n)
    (hf : ∀ j, j < n → target[j]? = some (f j)) :
    (List.range n).foldl (fun a i => a.set i (f i)) l = target := by
  apply List.ext_getElem?
  intro j
  rw [getElem?_foldl_set]
  by_cases hj : j < n
  · rw [if_pos ⟨hj, by omega⟩, hf j hj]
  · rw [if_neg (by omega), List.getElem?_eq_none (by omega),
      List.getElem?_eq_none (by omega)]

theorem foldl_suddenHaltPointStep (p : JogArmParameters) (orig : List ℚ)
    (l : List Nat) : ∀ pt : JointTrajectoryPoint,
    l.foldl (suddenHaltPointStep p orig) pt =
      { positions :=
          if p.publish_joint_positions then
            l.foldl (fun a i => a.set i (orig.getD i 0)) pt.positions
          else pt.positions
        velocities :=
          if p.publish_joint_velocities then
            l.foldl (fun a i => a.set i 0) pt.velocities
          else pt.velocities
        accelerations := pt.accelerations
        time_from_start := pt.time_from_start } := by
  induction l with
  | nil => intro pt; split_ifs <;> rfl
  | cons i rest ih =>
    intro pt
    simp only [List.foldl_cons]
    rw [ih]
    by_cases hp : p.publish_joint_positions <;> by_cases hv : p.publish_joint_velocities <;>
      simp [suddenHaltPointStep, hp, hv]

theorem haltCycleOutput_points (p : JogArmParameters) (n : Nat) (orig : List ℚ)
    (js : JointState) (hp : js.position.length = n) (hv : js.velocity.length = n)
    (ho : orig.length = n) :
    (haltCycleOutput p n orig js).points =
      [{ positions := if p.publish_joint_positions then orig else []
         velocities := if p.publish_joint_velocities then List.replicate n 0 else []
         accelerations := if p.publish_joint_accelerations then List.replicate n 0 else []
         time_from_start := p.publish_period }] := by
  simp only [haltCycleOutput, suddenHalt, composeJointTrajMessage]
  rw [foldl_suddenHaltPointStep]
  simp only [List.cons.injEq, and_true]
  ext : 1
  · by_cases hp1 : p.publish_joint_positions
    · simp only [hp1, if_true]
      exact foldl_set_eq_of_length _ n js.position orig hp ho
        (fun j hj => by
          rw [List.getD_eq_getElem?_getD, List.getElem?_eq_getElem (ho ▸ hj)]
          rfl)
    · simp [hp1]
  · by_cases hv1 : p.publish_joint_velocities
    · simp only [hv1, if_true]
      exact foldl_set_eq_of_length _ n js.velocity (List.replicate n 0) hv
        (List.length_replicate n 0)
        (fun j hj => List.getElem?_replicate_of_lt hj)
    · simp [hv1]
  · rfl
  · rfl

/-- Claim C6: halt idempotence.  With the telemetry snapshot unchanged, any
two halt cycles produce identical outgoing trajectory points, whatever the
tracked joint state held when the staged trajectory was composed; when
position publishing is enabled the point's positions equal the snapshot, and
when velocity publishing is enabled its velocities are all zero. -/
theorem suddenHalt_cycle_idempotent (p : JogArmParameters) (n : Nat)
    (orig : List ℚ) (js1 js2 : JointState)
    (h1p : js1.position.length = n) (h1v : js1.velocity.length = n)
    (h2p : js2.position.length = n) (h2v : js2.velocity.length = n)
    (ho : orig.length = n) :
    (haltCycleOutput p n orig js1).points = (haltCycleOutput p n orig js2).points ∧
    (p.publish_joint_positions = true →
      ((haltCycleOutput p n orig js1).points.headD default).positions = orig) ∧
    (p.publish_joint_velocities = true →
      ((haltCycleOutput p n orig js1).points.headD default).velocities =
        List.replicate n 0) := by
  have e1 := haltCycleOutput_points p n orig js1 h1p h1v ho
  have e2 := haltCycleOutput_points p n orig js2 h2p h2v ho
  refine ⟨by rw [e1, e2], fun hpub => ?_, fun hpub => ?_⟩
  · rw [e1]; simp [hpub]
  · rw [e1]; simp [hpub]

def exJs1 : JointState := ⟨["shoulder"], [5], [7], [0]⟩

def exJs2 : JointState := ⟨["shoulder"], [6], [9], [0]⟩

/-- Claim C6 witness: two concrete halt cycles over different tracked joint
states but the same snapshot `[3]` yield the same points, positions `[3]` and
velocities `[0]`. -/
theorem suddenHalt_cycle_idempotent_witness :
    (haltCycleOutput exParams 1 [3] exJs1).points =
      (haltCycleOutput exParams 1 [3] exJs2).points ∧
    ((haltCycleOutput exParams 1 [3] exJs1).points.headD default).positions = [3] ∧
    ((haltCycleOutput exParams 1 [3] exJs1).points.headD default).velocities =
      List.replicate 1 0 :=
  ⟨(suddenHalt_cycle_idempotent exParams 1 [3] exJs1 exJs2 rfl rfl rfl rfl rfl).1,
   (suddenHalt_cycle_idempotent exParams 1 [3] exJs1 exJs2 rfl rfl rfl rfl rfl).2.1 rfl,
   (suddenHalt_cycle_idempotent exParams 1 [3] exJs1 exJs2 rfl rfl rfl rfl rfl).2.2 rfl⟩

/-- Outcome of the per-cycle publish policy in `startMainLoop`
(jog_calcs.cpp lines 224–247): whether `shared_variables.outgoing_command`
is written and what `ok_to_publish` is set to. -/
structure PublishDecision where
  write_outgoing : Bool
  ok_to_publish : Bool
deriving Repr, DecidableEq

/-- The publish policy of `startMainLoop`: a valid non-zero command always
publishes; otherwise publication is suppressed only when
`num_outgoing_halt_msgs_to_publish` is non-zero and `zero_velocity_count`
exceeds it; every other case writes the outgoing trajectory and sets
`ok_to_publish`. -/
def outgoingPublishPolicy (p : JogArmParameters) (valid_nonzero_command : Bool)
    (zero_velocity_count : Int) : PublishDecision :=
  if valid_nonzero_command then ⟨true, true⟩
  else if p.num_outgoing_halt_msgs_to_publish ≠ 0 ∧
      zero_velocity_count > p.num_outgoing_halt_msgs_to_publish then ⟨false, false⟩
  else ⟨true, true⟩

/-- Claim C7: with `num_outgoing_halt_msgs_to_publish = 0` the suppression
branch can never fire: every cycle, zero or non-zero command and however
large `zero_velocity_count` has grown, writes the outgoing trajectory and
sets `ok_to_publish` to true. -/
theorem outgoingPublishPolicy_zero_param_always_publishes (p : JogArmParameters)
    (h : p.num_outgoing_halt_msgs_to_publish = 0) (valid_nonzero_command : Bool)
    (zero_velocity_count : Int) :
    outgoingPublishPolicy p valid_nonzero_command zero_velocity_count = ⟨true, true⟩ := by
  cases valid_nonzero_command <;> simp [outgoingPublishPolicy, h]

def exParamsZeroHalt : JogArmParameters :=
  { exParams with num_outgoing_halt_msgs_to_publish := 0 }

/-- Claim C7 witness: with the parameter 0, a zero-command cycle after a
million consecutive zero cycles still publishes. -/
theorem outgoingPublishPolicy_zero_param_always_publishes_witness :
    outgoingPublishPolicy exParamsZeroHalt false 1000000 = ⟨true, true⟩ :=
  outgoingPublishPolicy_zero_param_always_publishes exParamsZeroHalt rfl false 1000000

/-- `JogCalcs::applyVelocityScaling` (jog_calcs.cpp lines 464–475): scale
`delta_theta` by `collision_scale * singularity_scale` and report whether the
combined scale is at least 10%. -/
def applyVelocityScaling (collision_scale singularity_scale : ℚ)
    (delta_theta : Vec) : Vec × Bool :=
  (delta_theta.map (fun x => collision_scale * singularity_scale * x),
   decide (collision_scale * singularity_scale ≥ 1 / 10))

/-- Claim C8: `applyVelocityScaling` replaces `delta_theta` by the
componentwise product with `collision_scale * singularity_scale`, and returns
true exactly when that combined scale is at least 1/10. -/
theorem applyVelocityScaling_spec (collision_scale singularity_scale : ℚ)
    (delta_theta : Vec) :
    (applyVelocityScaling collision_scale singularity_scale delta_theta).1 =
      delta_theta.map (fun x => collision_scale * singularity_scale * x) ∧
    ((applyVelocityScaling collision_scale singularity_scale delta_theta).2 = true ↔
      collision_scale * singularity_scale ≥ 1 / 10) := by
  simp [applyVelocityScaling]

/-- What `enforceSRDFJointBounds` observes of one joint of the move group
through the kinematic model: the bound checks, the velocity value after
`enforceVelocityBounds`, the current joint velocity, and the SRDF limits
message.  `satisfiesPositionBounds` stands for the margin-adjusted call
`satisfiesPositionBounds(joint, -joint_limit_margin)`. -/
structure SrdfJoint where
  name : String
  satisfiesVelocityBounds : Bool
  enforcedVelocity : ℚ
  velocity0 : ℚ
  satisfiesPositionBounds : Bool
  limits : List (ℚ × ℚ)
deriving Repr

/-- The inner loop of the velocity-clamp write in `enforceSRDFJointBounds`
(jog_calcs.cpp lines 560–573): scan `joint_names` for the joint's name and
write the clamped velocity at the first index where the guard
`velocities.size() > c + 1` also holds; the loop breaks only after a
successful write. -/
def writeClampedVelocity (joint_name : String) (v : ℚ) :
    List String → Nat → List ℚ → List ℚ
  | [], _, velocities => velocities
  | n :: rest, c, velocities =>
    if n == joint_name then
      if velocities.length > c + 1 then velocities.set c v
      else writeClampedVelocity joint_name v rest (c + 1) velocities
    else writeClampedVelocity joint_name v rest (c + 1) velocities

/-- The first-match joint-angle lookup of `enforceSRDFJointBounds`
(jog_calcs.cpp lines 577–585), defaulting to 0 when the joint is absent from
the snapshot. -/
def lookupJointAngle (original : JointState) (joint_name : String) : ℚ :=
  match original.name.findIdx? (· == joint_name) with
  | some c => original.position.getD c 0
  | none => 0

/-- One iteration of the per-joint loop of `enforceSRDFJointBounds`
(jog_calcs.cpp lines 552–605): clamp and write the velocity when the velocity
bound is violated, then set `halting` when the margin-adjusted position bound
is violated while moving further toward the nearer limit. -/
def enforceJointStep (p : JogArmParameters) (original : JointState)
    (acc : Bool × JointTrajectory) (joint : SrdfJoint) : Bool × JointTrajectory :=
  let traj := acc.2
  let traj1 :=
    if joint.satisfiesVelocityBounds then traj
    else
      match traj.points with
      | [] => traj
      | pt :: rest =>
        { traj with
          points :=
            { pt with
              velocities :=
                writeClampedVelocity joint.name joint.enforcedVelocity traj.joint_names 0
                  pt.velocities } :: rest }
  let joint_angle := lookupJointAngle original joint.name
  let halting1 :=
    if joint.satisfiesPositionBounds then acc.1
    else
      match joint.limits with
      | [] => acc.1
      | (min_position, max_position) :: _ =>
        if (joint.velocity0 < 0 ∧ joint_angle < min_position + p.joint_limit_margin) ∨
            (joint.velocity0 > 0 ∧ joint_angle > max_position - p.joint_limit_margin) then
          true
        else acc.1
  (halting1, traj1)

/-- `JogCalcs::enforceSRDFJointBounds` (jog_calcs.cpp lines 542–607): an
empty trajectory returns true immediately (with a throttled warning);
otherwise run the per-joint loop and return `!halting` with the possibly
velocity-clamped trajectory. -/
def enforceSRDFJointBounds (p : JogArmParameters) (joints : List SrdfJoint)
    (original : JointState) (new_joint_traj : JointTrajectory) :
    Bool × JointTrajectory :=
  if new_joint_traj.points.isEmpty then (true, new_joint_traj)
  else
    let r := joints.foldl (enforceJointStep p original) (false, new_joint_traj)
    (!r.1, r.2)

/-- Claim C9: for every trajectory whose points sequence is empty,
`enforceSRDFJointBounds` returns true and leaves the trajectory unchanged,
for every joint set and snapshot. -/
theorem enforceSRDFJointBounds_empty_trajectory (p : JogArmParameters)
    (joints : List SrdfJoint) (original : JointState) (new_joint_traj : JointTrajectory)
    (h : new_joint_traj.points = []) :
    enforceSRDFJointBounds p joints original new_joint_traj = (true, new_joint_traj) := by
  simp [enforceSRDFJointBounds, h]

def exEmptyTraj : JointTrajectory := ⟨"base_link", ["shoulder"], []⟩

/-- Claim C9 witness: the theorem applied at a concrete empty trajectory. -/
theorem enforceSRDFJointBounds_empty_trajectory_witness :
    enforceSRDFJointBounds exParams [] exJs1 exEmptyTraj = (true, exEmptyTraj) :=
  enforceSRDFJointBounds_empty_trajectory exParams [] exJs1 exEmptyTraj rfl

/-- The write loop of `JogCalcs::updateJoints` (jog_calcs.cpp lines 644–658):
for each incoming joint name, look it up in `joint_state_name_map_`; unknown
names are skipped with a throttled warning; known names have their incoming
position written into the tracked position slot.  `nameMap` models
`joint_state_name_map_.at` with its `out_of_range` catch. -/
def updateJointsWriteLoop (nameMap : String → Option Nat)
    (incoming_positions : List ℚ) :
    List String → Nat → JointState → JointState
  | [], _, js => js
  | n :: rest, m, js =>
    match nameMap n with
    | none => updateJointsWriteLoop nameMap incoming_positions rest (m + 1) js
    | some c =>
      updateJointsWriteLoop nameMap incoming_positions rest (m + 1)
        { js with position := js.position.set c (incoming_positions.getD m 0) }

/-- `JogCalcs::updateJoints` (jog_calcs.cpp lines 633–664): reject telemetry
with fewer names than the move group's joints, otherwise write the incoming
positions into the tracked joint state and snapshot it into
`original_joint_state_`.  Returns the flag, the new tracked state and the new
snapshot. -/
def updateJoints (nameMap : String → Option Nat) (num_joints : Nat)
    (incoming joint_state original : JointState) :
    Bool × JointState × JointState :=
  if incoming.name.length < num_joints then (false, joint_state, original)
  else
    let js1 := updateJointsWriteLoop nameMap incoming.position incoming.name 0 joint_state
    (true, js1, js1)

/-- Claim C10: `updateJoints` writes only position entries of the tracked
joint state: its name, velocity and effort vectors are unchanged, whether the
call returns true or false. -/
theorem updateJoints_only_writes_positions (nameMap : String → Option Nat)
    (num_joints : Nat) (incoming joint_state original : JointState) :
    (updateJoints nameMap num_joints incoming joint_state original).2.1.name =
      joint_state.name ∧
    (updateJoints nameMap num_joints incoming joint_state original).2.1.velocity =
      joint_state.velocity ∧
    (updateJoints nameMap num_joints incoming joint_state original).2.1.effort =
      joint_state.effort := by
  have key : ∀ (names : List String) (m : Nat) (js : JointState),
      (updateJointsWriteLoop nameMap incoming.position names m js).name = js.name ∧
      (updateJointsWriteLoop nameMap incoming.position names m js).velocity =
        js.velocity ∧
      (updateJointsWriteLoop nameMap incoming.position names m js).effort = js.effort := by
    intro names
    induction names with
    | nil => exact fun m js => ⟨rfl, rfl, rfl⟩
    | cons n rest ih =>
      intro m js
      simp only [updateJointsWriteLoop]
      cases nameMap n with
      | none => exact ih (m + 1) js
      | some c => exact ih (m + 1) _
  by_cases h : incoming.name.length < num_joints
  · simp [updateJoints, h]
  · simp only [updateJoints, if_neg h]
    exact key incoming.name 0 joint_state

end MoveitJogArm
